import Mathlib

/-!
# FinGuide transaction-normalization and sequence/feature pipeline: verification

A shallow embedding, in Lean 4, of the core pipeline of the FinGuide
repository, together with theorems settling the specification claims about it.

The embedded code comes from:

* `src/ML/expense_prediction.py` — the training notebook: daily resampling and
  feature engineering (`df_daily`, part 3.1), scaling experiments, and the
  sliding-window sequence/label builder `create_sequences_with_targets`;
* `src/backend/app/core/finguide_inference.py` — the inference adapter
  (`FinGuidePredictor._preprocess_user_data`, `predict_next_week`);
* `src/backend/app/core/momo_parsing.py` — the cascading MoMo SMS text parser
  `parse_momo_sms`;
* `src/backend/app/services/sms_parser.py` — the service-layer SMS parser.

Conventions: Python floats are modelled as `ℝ` where transcendental functions
(`log1p`, `expm1`, `sqrt`) are involved and as `ℚ` where the code only does
field arithmetic; calendar dates are modelled as integers (a day number, one
unit per calendar day); pandas dataframes become lists of records; operations
that raise exceptions return `Option`, with `none` for the raised case.
-/

namespace FinGuide

/-! ## Scaling Discipline (spec §4.5)

The four interchangeable scaling strategies named by the spec, as they appear
in the source: passthrough; min-max against a rolling peak
(`Amount / Rolling_90d_Max`, `expense_prediction.py` lines 312–317); global
min-max (sklearn `MinMaxScaler`, line 320); and outlier-resistant median/IQR
scaling (sklearn `RobustScaler`, lines 2584–2585 and 2892–2893).  The sklearn
scalers divide by the fitted denominator, with a zero denominator replaced by
one (sklearn `_handle_zeros_in_scale`); their inverse transform multiplies
back and re-adds the offset.  The log-compression path of the inference
adapter (`finguide_inference.py` line 99 `np.log1p`, lines 152–154
`inverse_transform` then `np.expm1`) is modelled by `log1p` and `expm1`.
-/

/-- Fitted per-feature scaler state, one constructor per supported strategy. -/
inductive ScalerState where
  | passthrough
  | rollingPeak (peak : ℝ)
  | minmax (dataMin dataMax : ℝ)
  | robust (median iqr : ℝ)

/-- sklearn `_handle_zeros_in_scale`: a zero scale denominator is replaced by
one so that constant features survive the round trip. -/
noncomputable def handleZeros (d : ℝ) : ℝ :=
  if d = 0 then 1 else d

/-- `transform`: apply a fitted scaler (never refit). -/
noncomputable def scalerTransform : ScalerState → ℝ → ℝ
  | .passthrough, x => x
  | .rollingPeak p, x => x / p
  | .minmax mn mx, x => (x - mn) / handleZeros (mx - mn)
  | .robust med iqr, x => (x - med) / handleZeros iqr

/-- `inverse`: invert a fitted scaler back to original units. -/
noncomputable def scalerInverse : ScalerState → ℝ → ℝ
  | .passthrough, y => y
  | .rollingPeak p, y => y * p
  | .minmax mn mx, y => y * handleZeros (mx - mn) + mn
  | .robust med iqr, y => y * handleZeros iqr + med

/-- `np.log1p`, the log-compression applied to amounts before scaling
(`finguide_inference.py` line 99). -/
noncomputable def log1p (x : ℝ) : ℝ :=
  Real.log (1 + x)

/-- `np.expm1`, the exponential inverse applied after the scaler inverse
(`finguide_inference.py` line 154). -/
noncomputable def expm1 (y : ℝ) : ℝ :=
  Real.exp y - 1

/-- Well-formedness of a fitted scaler state: the rolling peak is nonzero
(amounts are strictly positive, so a fitted rolling maximum never vanishes);
the sklearn strategies need no side condition thanks to `handleZeros`. -/
def ScalerState.Valid : ScalerState → Prop
  | .rollingPeak p => p ≠ 0
  | _ => True

/-! ## Feature Encoder constants (spec §4.4)

The payday-proximity day-of-month sets and the essential category lists, as
hard-coded by the training pipeline (`expense_prediction.py` lines 2534–2543)
and by the inference adapter (`finguide_inference.py` lines 75–84).
-/

/-- Training payday day-of-month set (`expense_prediction.py` line 2536). -/
def trainingPaydayDays : List ℕ := [1, 2, 15, 16]

/-- Inference payday day-of-month set (`finguide_inference.py` line 77). -/
def inferencePaydayDays : List ℕ := [1, 2, 28, 29, 30, 15]

/-- Training essential category list (`expense_prediction.py` line 2540). -/
def trainingEssentialCategories : List String :=
  ["Groceries", "Health", "Utilities", "Transportation", "Insurance"]

/-- Inference essential category list (`finguide_inference.py` line 81). -/
def inferenceEssentialCategories : List String :=
  ["Groceries", "Utilities", "Transport", "Rent"]

/-- Training `Is_Payday_Proximity` flag for a day of month
(`expense_prediction.py` lines 2535–2537). -/
def trainingIsPaydayProximity (d : ℕ) : ℕ :=
  if d ∈ trainingPaydayDays then 1 else 0

/-- Inference `Is_Payday_Proximity` flag for a day of month
(`finguide_inference.py` lines 76–78). -/
def inferenceIsPaydayProximity (d : ℕ) : ℕ :=
  if d ∈ inferencePaydayDays then 1 else 0

/-- Training `Is_Essential` flag for a category string
(`expense_prediction.py` lines 2540–2543). -/
def trainingIsEssential (c : String) : ℕ :=
  if c ∈ trainingEssentialCategories then 1 else 0

/-- Inference `Is_Essential` flag for a category string
(`finguide_inference.py` lines 81–84). -/
def inferenceIsEssential (c : String) : ℕ :=
  if c ∈ inferenceEssentialCategories then 1 else 0

/-! ## Daily Aggregator (spec §4.3)

Both pipelines resample an irregular transaction list to one row per calendar
day: the training notebook over the full span `[index.min(), index.max()]`
(`expense_prediction.py` lines 2512–2526), the inference adapter over the 30
days ending at the newest transaction (`finguide_inference.py` lines 51–66).
Both use `DataFrame.reindex` on a date-indexed frame; pandas `reindex` raises
`ValueError` when the original index contains duplicate labels, which we model
by returning `none`.  Days absent from the index get `Amount = 0`,
`category = 'No_Transaction'` and `type = 'None'` from the `fillna` calls.
-/

/-- A transaction-like record as consumed by the pipeline (spec §6): calendar
date (as a day number), amount, category string, debit/credit type string. -/
structure Tx where
  date : ℤ
  amount : ℚ
  category : String
  txType : String
deriving DecidableEq

/-- Least element of a list of integers (`0` on the empty list, which the
callers below rule out). -/
def listMin : List ℤ → ℤ
  | [] => 0
  | d :: ds => ds.foldl min d

/-- Greatest element of a list of integers (`0` on the empty list). -/
def listMax : List ℤ → ℤ
  | [] => 0
  | d :: ds => ds.foldl max d

/-- The date column of a transaction list. -/
def txDates (txs : List Tx) : List ℤ :=
  txs.map (·.date)

/-- `df.index.min()`. -/
def minDate (txs : List Tx) : ℤ :=
  listMin (txDates txs)

/-- `df.index.max()`. -/
def maxDate (txs : List Tx) : ℤ :=
  listMax (txDates txs)

/-- `pd.date_range(start, ...)`: `len` consecutive calendar days from
`start`. -/
def dateRange (start : ℤ) (len : ℕ) : List ℤ :=
  (List.range len).map (fun i => start + i)

/-- One daily bucket row: the reindexed row for one calendar day, after the
`fillna` defaults for days with no transaction. -/
structure DailyBucket where
  date : ℤ
  amount : ℚ
  category : String
  txType : String
  hasActivity : Bool
deriving DecidableEq

/-- The reindexed row at date `d`: the (unique) transaction row labelled `d`
when one exists, otherwise the `fillna` placeholder
(`Amount = 0`, `category = 'No_Transaction'`, `type = 'None'`). -/
def bucketAt (txs : List Tx) (d : ℤ) : DailyBucket :=
  match txs.find? (fun t => t.date == d) with
  | some t => ⟨d, t.amount, t.category, t.txType, true⟩
  | none => ⟨d, 0, "No_Transaction", "None", false⟩

/-- Training-side daily resampling (`expense_prediction.py` lines 2512–2526):
reindex the date-indexed transaction frame over the full date range
`[min, max]`.  `none` models the `ValueError` pandas raises when the original
index has duplicate date labels (and the undefined range on an empty frame). -/
def dailyResample (txs : List Tx) : Option (List DailyBucket) :=
  if txs = [] then none
  else if (txDates txs).Nodup then
    some ((dateRange (minDate txs) ((maxDate txs - minDate txs).toNat + 1)).map (bucketAt txs))
  else none

/-! ## Inference Adapter (spec §4.7)

`FinGuidePredictor.predict_next_week` (`finguide_inference.py` lines
126–174): a warmup gate `len(transactions) < 15`, then a `try` block running
`_preprocess_user_data` (whose daily reindexing covers the 30 days ending at
the newest transaction) and the external model call; any exception inside the
`try` becomes a structured `{"status": "error"}` result.  The external
forecasting model is a black box (spec §1), so `predictNextWeek` takes it as
a function argument; the numeric decoding of its output is covered by the
Scaling Discipline section above.
-/

/-- `_preprocess_user_data`, daily-resampling part (`finguide_inference.py`
lines 51–66): reindex over the 30 days ending at `df.index.max()`; `none`
models the `ValueError` raised by `reindex` on a duplicate date index (and
the undefined range on an empty list). -/
def inferencePreprocess (txs : List Tx) : Option (List DailyBucket) :=
  if txs = [] then none
  else if (txDates txs).Nodup then
    some ((dateRange (maxDate txs - 29) 30).map (bucketAt txs))
  else none

/-- Result of `predict_next_week`: the `"warmup"` dict with its message, the
`"success"` dict (payload abstracted as the black-box model output), or the
`"error"` dict produced by the `except` clause. -/
inductive PredictResult (α : Type) where
  | warmup (message : String)
  | success (output : α)
  | error
deriving DecidableEq

/-- The warmup message of `finguide_inference.py` line 134. -/
def warmupMessage : String :=
  "Need more data (at least 15 days) for accurate AI predictions."

/-- `predict_next_week` (`finguide_inference.py` lines 126–174), with the
external model as an explicit argument. -/
def predictNextWeek {α : Type} (model : List DailyBucket → α) (txs : List Tx) :
    PredictResult α :=
  if txs.length < 15 then .warmup warmupMessage
  else
    match inferencePreprocess txs with
    | none => .error
    | some window => .success (model window)

/-- The number of distinct calendar days covered by a transaction list — the
"days of history" the warmup gate is specified to count. -/
def distinctDays (txs : List Tx) : ℕ :=
  (txDates txs).dedup.length

/-! ## Sequence & Label Builder (spec §4.6)

`create_sequences_with_targets` (`expense_prediction.py` lines 1543–1599).
For each window start `i`, the future window is every row strictly after the
window's last date, within `prediction_days` calendar days, with
`Is_Expense == 1`.  The category target is `future['Category_Encoded'].mode()`
then `.iloc[0]` — pandas `mode()` returns the most frequent values sorted
ascending, so `.iloc[0]` is the *smallest* encoded value among the tied modes
— and `0` when the future window is empty.  The volatility target is
`min(std / (mean + 1e-8), 2.0) / 2.0` (pandas sample std, `ddof = 1`) when
the future window has at least two rows, else the fixed default `0.5`.
-/

/-- One encoded row of the dataframe fed to the sequence builder: date,
amount, encoded category, and the `Is_Expense` flag. -/
structure Row where
  date : ℤ
  amount : ℚ
  catEnc : ℕ
  isExpense : Bool
deriving DecidableEq

instance : Inhabited Row :=
  ⟨⟨0, 0, 0, false⟩⟩

/-- The future window for a window ending at `endDate`
(`expense_prediction.py` line 1571): rows with
`Date > end_date`, `Date <= end_date + prediction_days`, `Is_Expense == 1`. -/
def futureWindow (df : List Row) (endDate : ℤ) (predictionDays : ℕ) : List Row :=
  df.filter (fun r =>
    decide (endDate < r.date) && decide (r.date ≤ endDate + predictionDays) && r.isExpense)

/-- The largest multiplicity occurring in `l`. -/
def maxCount (l : List ℕ) : ℕ :=
  (l.map (fun v => l.count v)).foldr max 0

/-- Least element of a list of naturals (`0` on the empty list). -/
def listMinNat : List ℕ → ℕ
  | [] => 0
  | v :: vs => vs.foldl min v

/-- The values of maximal multiplicity in `l`, deduplicated — pandas
`Series.mode()` as a set of values. -/
def modes (l : List ℕ) : List ℕ :=
  l.dedup.filter (fun v => l.count v == maxCount l)

/-- `Series.mode().iloc[0]`: pandas sorts the tied modes ascending, so the
first is the least value of maximal multiplicity. -/
def pandasModeHead (l : List ℕ) : ℕ :=
  listMinNat (modes l)

/-- Category target of one window (`expense_prediction.py` lines 1579–1585):
the head of the sorted pandas mode of the future window's encoded categories,
`0` when the future window is empty. -/
def categoryTarget (future : List Row) : ℕ :=
  if future = [] then 0 else pandasModeHead (future.map (·.catEnc))

/-- Amount target of one window (`expense_prediction.py` lines 1574–1577):
total future expense amount (`0` when the future window is empty, which the
sum already gives). -/
def amountTarget (future : List Row) : ℚ :=
  (future.map (·.amount)).sum

/-- Arithmetic mean of a list of reals. -/
noncomputable def listMeanR (l : List ℝ) : ℝ :=
  l.sum / l.length

/-- pandas `Series.std()`: sample standard deviation with `ddof = 1`. -/
noncomputable def sampleStd (l : List ℝ) : ℝ :=
  Real.sqrt ((l.map (fun x => (x - listMeanR l) ^ 2)).sum / ((l.length : ℝ) - 1))

/-- Volatility target of one window (`expense_prediction.py` lines
1587–1594): `min(std_exp / (mean_exp + 1e-8), 2.0) / 2.0` when the future
window has at least two rows, else the fixed neutral default `0.5`. -/
noncomputable def volatilityTarget (future : List Row) : ℝ :=
  if 1 < future.length then
    min (sampleStd (future.map (fun r => (r.amount : ℝ))) /
         (listMeanR (future.map (fun r => (r.amount : ℝ))) + 1 / 100000000)) 2 / 2
  else 0.5

/-- Modelled from the spec: the category label as §4.6 words it — "most
frequent category in the future window, ties broken by first chronological
occurrence".  Kept for comparison with `categoryTarget`, which embeds the
source. -/
def specCategoryLabel (future : List Row) : ℕ :=
  let cats := future.map (·.catEnc)
  match cats.find? (fun v => cats.count v == maxCount cats) with
  | some v => v
  | none => 0

/-- Modelled from the spec: the volatility label as §4.6 words it —
`min(stddev/mean, cap) / cap` with cap `2`, default `0.5` below two points.
Kept for comparison with `volatilityTarget`, which embeds the source. -/
noncomputable def specVolatilityLabel (future : List Row) : ℝ :=
  if 1 < future.length then
    min (sampleStd (future.map (fun r => (r.amount : ℝ))) /
         listMeanR (future.map (fun r => (r.amount : ℝ)))) 2 / 2
  else 0.5

/-- The chronologically last row of window `i`
(`expense_prediction.py` line 1566): `df.iloc[i + sequence_length - 1]`. -/
def windowEndDate (df : List Row) (seqLen i : ℕ) : ℤ :=
  (df.getD (i + seqLen - 1) default).date

/-- Future window of the `i`-th sliding window. -/
def futureOfWindow (df : List Row) (seqLen predictionDays i : ℕ) : List Row :=
  futureWindow df (windowEndDate df seqLen i) predictionDays

/-- The `targets_category` array of `create_sequences_with_targets`: one
category target per window start `i ∈ range (len(data) − sequence_length)`. -/
def targetsCategory (df : List Row) (seqLen predictionDays : ℕ) : List ℕ :=
  (List.range (df.length - seqLen)).map
    (fun i => categoryTarget (futureOfWindow df seqLen predictionDays i))

/-- The `targets_amount` array of `create_sequences_with_targets`. -/
def targetsAmount (df : List Row) (seqLen predictionDays : ℕ) : List ℚ :=
  (List.range (df.length - seqLen)).map
    (fun i => amountTarget (futureOfWindow df seqLen predictionDays i))

/-- The `targets_volatility` array of `create_sequences_with_targets`. -/
noncomputable def targetsVolatility (df : List Row) (seqLen predictionDays : ℕ) :
    List ℝ :=
  (List.range (df.length - seqLen)).map
    (fun i => volatilityTarget (futureOfWindow df seqLen predictionDays i))

/-! ## Message Parser (spec §4.1): `momo_parsing.parse_momo_sms`

`src/backend/app/core/momo_parsing.py` is a prioritized cascade of four
`re.search` patterns over a cleaned message.  Each pattern is embedded as a
hand-written scanner with exactly the semantics of the Python regex: the
leftmost starting position wins, greedy character-class runs (`[\d,]+`,
`[^)]+`, `[\d-]+`, `[\d:]+`, `\s*`) never backtrack because in every pattern
the following literal is disjoint from the class, lazy `(.*?)` (which cannot
cross a newline) extends one character at a time until the rest of the
pattern matches, and alternations try their branches in source order.
-/

/-- `\s` (the matched text has been cleaned, so ASCII whitespace). -/
def isWs (c : Char) : Bool :=
  c.isWhitespace

/-- `[\d,]`, the amount character class. -/
def isDigitComma (c : Char) : Bool :=
  c.isDigit || c == ','

/-- Case-insensitive literal match (regexes compiled with `re.IGNORECASE`):
consume `pat` from the head of the input, returning the remainder. -/
def ciStarts : List Char → List Char → Option (List Char)
  | [], cs => some cs
  | _, [] => none
  | p :: ps, c :: cs => if p.toLower == c.toLower then ciStarts ps cs else none

/-- Case-sensitive literal match, returning the remainder. -/
def litStarts : List Char → List Char → Option (List Char)
  | [], cs => some cs
  | _, [] => none
  | p :: ps, c :: cs => if p == c then litStarts ps cs else none

/-- Greedy `+` over a character class: the maximal nonempty run satisfying
`p`, with the remainder. -/
def takeRun (p : Char → Bool) (cs : List Char) : Option (List Char × List Char) :=
  if cs.takeWhile p = [] then none else some (cs.takeWhile p, cs.dropWhile p)

/-- Exactly `n` digits (`\d{n}`). -/
def exactDigits (n : ℕ) (cs : List Char) : Option (List Char × List Char) :=
  let ds := cs.take n
  if ds.length == n && ds.all (·.isDigit) then some (ds, cs.drop n) else none

/-- `re.search` position scan: try the pattern at each start position, left
to right. -/
def searchList {α : Type} (att : List Char → Option α) : List Char → Option α
  | [] => att []
  | c :: cs =>
    match att (c :: cs) with
    | some r => some r
    | none => searchList att cs

/-- Lazy `(.*?)` (no `re.DOTALL`, so it cannot cross a newline): try the rest
of the pattern after ever-longer captured chunks, shortest first. -/
def lazyDotGo {α : Type} (att : List Char → List Char → Option α) :
    List Char → List Char → Option α
  | acc, rest =>
    match att acc.reverse rest with
    | some r => some r
    | none =>
      match rest with
      | [] => none
      | c :: cs => if c == '\n' then none else lazyDotGo att (c :: acc) cs

/-- The timestamp group `([\d-]+ [\d:]+)`: capture and remainder. -/
def matchDate (cs : List Char) : Option (List Char × List Char) :=
  match takeRun (fun c => c.isDigit || c == '-') cs with
  | none => none
  | some (r1, rest1) =>
    match rest1 with
    | ' ' :: rest2 =>
      match takeRun (fun c => c.isDigit || c == ':') rest2 with
      | none => none
      | some (r2, rest3) => some (r1 ++ ' ' :: r2, rest3)
    | _ => none

/-- The phone alternation of pattern 2, `(25\d{9}|07\d{8})`, branches tried
in source order. -/
def matchPhoneAlt (cs : List Char) : Option (List Char × List Char) :=
  match (match litStarts "25".toList cs with
         | some r =>
           match exactDigits 9 r with
           | some (ds, rest) => some ('2' :: '5' :: ds, rest)
           | none => none
         | none => none) with
  | some v => some v
  | none =>
    match litStarts "07".toList cs with
    | some r =>
      match exactDigits 8 r with
      | some (ds, rest) => some ('0' :: '7' :: ds, rest)
      | none => none
    | none => none

/-- Pattern 1 at one position:
`'You have received ([\d,]+) RWF from (.*?)\s*\(([^)]+)\) at ([\d-]+ [\d:]+)'`
(with `re.IGNORECASE`); captures (amount, party, phone, date). -/
def tryP1At (cs : List Char) :
    Option (List Char × List Char × List Char × List Char) :=
  match ciStarts "You have received ".toList cs with
  | none => none
  | some r1 =>
    match takeRun isDigitComma r1 with
    | none => none
    | some (amt, r2) =>
      match ciStarts " RWF from ".toList r2 with
      | none => none
      | some r3 =>
        lazyDotGo (fun party rest =>
          match rest.dropWhile isWs with
          | '(' :: r4 =>
            match takeRun (fun c => c != ')') r4 with
            | none => none
            | some (ph, r5) =>
              match r5 with
              | ')' :: r6 =>
                match ciStarts " at ".toList r6 with
                | none => none
                | some r7 => (matchDate r7).map (fun pr => (amt, party, ph, pr.1))
              | _ => none
          | _ => none) [] r3

/-- Pattern 2 at one position:
`'([\d,]+) RWF transferred to (.*?)\s*\((25\d{9}|07\d{8})\) at ([\d-]+ [\d:]+)'`
(with `re.IGNORECASE`); captures (amount, party, phone, date). -/
def tryP2At (cs : List Char) :
    Option (List Char × List Char × List Char × List Char) :=
  match takeRun isDigitComma cs with
  | none => none
  | some (amt, r1) =>
    match ciStarts " RWF transferred to ".toList r1 with
    | none => none
    | some r2 =>
      lazyDotGo (fun party rest =>
        match rest.dropWhile isWs with
        | '(' :: r3 =>
          match matchPhoneAlt r3 with
          | none => none
          | some (ph, r4) =>
            match r4 with
            | ')' :: r5 =>
              match ciStarts " at ".toList r5 with
              | none => none
              | some r6 => (matchDate r6).map (fun pr => (amt, party, ph, pr.1))
            | _ => none
        | _ => none) [] r2

/-- Pattern 3 at one position:
`'A transaction of ([\d,]+) RWF by (.*?) was completed at ([\d-]+ [\d:]+)'`
(with `re.IGNORECASE`); captures (amount, party, date). -/
def tryP3At (cs : List Char) : Option (List Char × List Char × List Char) :=
  match ciStarts "A transaction of ".toList cs with
  | none => none
  | some r1 =>
    match takeRun isDigitComma r1 with
    | none => none
    | some (amt, r2) =>
      match ciStarts " RWF by ".toList r2 with
      | none => none
      | some r3 =>
        lazyDotGo (fun party rest =>
          match ciStarts " was completed at ".toList rest with
          | none => none
          | some r4 => (matchDate r4).map (fun pr => (amt, party, pr.1))) [] r3

/-- Pattern 4 at one position:
`'Your payment of ([\d,]+) RWF to (.*?) (?:with token|was completed)'`
(with `re.IGNORECASE`); captures (amount, party). -/
def tryP4At (cs : List Char) : Option (List Char × List Char) :=
  match ciStarts "Your payment of ".toList cs with
  | none => none
  | some r1 =>
    match takeRun isDigitComma r1 with
    | none => none
    | some (amt, r2) =>
      match ciStarts " RWF to ".toList r2 with
      | none => none
      | some r3 =>
        lazyDotGo (fun party rest =>
          match rest with
          | ' ' :: r4 =>
            match ciStarts "with token".toList r4 with
            | some _ => some (amt, party)
            | none => (ciStarts "was completed".toList r4).map (fun _ => (amt, party))
          | _ => none) [] r3

/-- `'Balance:\s*([\d,]+)'` (with `re.IGNORECASE`) at one position. -/
def tryBalanceAt (cs : List Char) : Option (List Char) :=
  match ciStarts "Balance:".toList cs with
  | none => none
  | some r1 => (takeRun isDigitComma (r1.dropWhile isWs)).map (·.1)

/-- `'completed at ([\d-]+ [\d:]+)'` (with `re.IGNORECASE`) at one
position. -/
def tryCompletedAt (cs : List Char) : Option (List Char) :=
  match ciStarts "completed at ".toList cs with
  | none => none
  | some r1 => (matchDate r1).map (·.1)

/-! ### Cleaning pipeline (`momo_parsing.py` lines 23–37) -/

/-- `re.sub` with empty replacement: delete every non-overlapping match,
scanning left to right (`att` returns the remainder after a match at the
head).  Fuel is the input length; every matcher below consumes at least one
character, so the fuel never runs out. -/
def subAllGo (att : List Char → Option (List Char)) : ℕ → List Char → List Char
  | 0, l => l
  | _ + 1, [] => []
  | fuel + 1, c :: cs =>
    match att (c :: cs) with
    | some rest => subAllGo att fuel rest
    | none => c :: subAllGo att fuel cs

/-- `re.sub(pattern, '', ...)` driver. -/
def subAll (att : List Char → Option (List Char)) (l : List Char) : List Char :=
  subAllGo att l.length l

/-- `'\*16\d\*TxId:\d+\*S\*'` at one position (case-sensitive). -/
def tryWrap1 (cs : List Char) : Option (List Char) :=
  match litStarts "*16".toList cs with
  | none => none
  | some r1 =>
    match r1 with
    | d :: r2 =>
      if d.isDigit then
        match litStarts "*TxId:".toList r2 with
        | none => none
        | some r3 =>
          match takeRun (·.isDigit) r3 with
          | none => none
          | some (_, r4) => litStarts "*S*".toList r4
      else none
    | [] => none

/-- `'TxId:\d+\*S\*'` at one position (case-sensitive). -/
def tryWrap2 (cs : List Char) : Option (List Char) :=
  match litStarts "TxId:".toList cs with
  | none => none
  | some r1 =>
    match takeRun (·.isDigit) r1 with
    | none => none
    | some (_, r2) => litStarts "*S*".toList r2

/-- `'\*16\d\*S\*'` at one position (case-sensitive). -/
def tryWrap3 (cs : List Char) : Option (List Char) :=
  match litStarts "*16".toList cs with
  | none => none
  | some r1 =>
    match r1 with
    | d :: r2 => if d.isDigit then litStarts "*S*".toList r2 else none
    | [] => none

/-- Python `str.strip()`. -/
def trimWs (cs : List Char) : List Char :=
  ((cs.dropWhile isWs).reverse.dropWhile isWs).reverse

/-- The apostrophe character (spelt by code point). -/
def apos : Char :=
  Char.ofNat 39

/-- The literal pattern text of `momo_parsing.py` line 34, an opener greeting
followed by a comma. -/
def yelloPat : List Char :=
  ['Y', apos, 'e', 'l', 'l', 'o', ',']

/-- `re.sub(r"^Y...o,\s*", '', ..., flags=re.IGNORECASE)`: the anchored
greeting opener, stripped once from the start. -/
def stripGreeting (cs : List Char) : List Char :=
  match ciStarts yelloPat cs with
  | some r => r.dropWhile isWs
  | none => cs

/-- `'Download\s+MoMo'` head of the trailing-promotion pattern at one
position (with `re.IGNORECASE`). -/
def tryDl (cs : List Char) : Option Unit :=
  match ciStarts "Download".toList cs with
  | none => none
  | some r1 =>
    match r1 with
    | c :: _ =>
      if isWs c then (ciStarts "MoMo".toList (r1.dropWhile isWs)).map (fun _ => ())
      else none
    | [] => none

/-- `re.sub(r'Download\s+MoMo.*$', '', ..., flags=re.IGNORECASE | re.DOTALL)`:
with `DOTALL`, `.*$` swallows the rest of the message, so the substitution
truncates at the leftmost match. -/
def cutDownload : List Char → List Char
  | [] => []
  | c :: cs =>
    match tryDl (c :: cs) with
    | some _ => []
    | none => c :: cutDownload cs

/-- The full cleaning pipeline of `momo_parsing.py` lines 23–37, in source
order. -/
def cleanSms (s : String) : List Char :=
  let c1 := subAll tryWrap1 s.toList
  let c2 := subAll tryWrap2 c1
  let c3 := subAll tryWrap3 c2
  let c4 := subAll (litStarts "*EN##".toList) c3
  let c5 := subAll (litStarts "*EN#".toList) c4
  let c6 := stripGreeting (trimWs c5)
  trimWs (cutDownload c6)

/-! ### Extraction helpers of `momo_parsing.py` -/

/-- Python `str.title()`: letters after a non-letter are uppercased, letters
after a letter lowercased. -/
def pyTitleGo : Bool → List Char → List Char
  | _, [] => []
  | prevAlpha, c :: cs =>
    if c.isAlpha then
      (if prevAlpha then c.toLower else c.toUpper) :: pyTitleGo true cs
    else c :: pyTitleGo false cs

/-- `_title_case` (`momo_parsing.py` lines 5–9): title-case a name only when
it is entirely upper-case. -/
def titleCaseName (s : String) : String :=
  if s == String.mk (s.toList.map Char.toUpper) then String.mk (pyTitleGo false s.toList)
  else s

/-- `float(g.replace(',', ''))` on a `[\d,]+` capture: the digit value. -/
def digitsToNat (ds : List Char) : ℕ :=
  ds.foldl (fun n c => 10 * n + (c.toNat - 48)) 0

/-- Amount value of a `[\d,]+` capture. -/
def amountOf (chars : List Char) : ℚ :=
  (digitsToNat (chars.filter (·.isDigit)) : ℚ)

/-- Pattern 1 phone normalization (`momo_parsing.py` lines 62–64): strip
non-digits; if at least nine digits remain, keep as-is when starting `07`,
else prepend `0` to the last nine digits; otherwise leave the field unset. -/
def normalizePhone1 (ph : List Char) : Option String :=
  let ds := ph.filter (·.isDigit)
  if 9 ≤ ds.length then
    if (litStarts "07".toList ds).isSome then some (String.mk ds)
    else some (String.mk ('0' :: ds.drop (ds.length - 9)))
  else none

/-- Pattern 2 phone normalization (`momo_parsing.py` line 83). -/
def normalizePhone2 (ph : List Char) : String :=
  if (litStarts "07".toList ph).isSome then String.mk ph
  else String.mk ('0' :: ph.drop (ph.length - 9))

/-- Substring test (Python `in` on strings). -/
def containsSub (pat : List Char) : List Char → Bool
  | [] => pat.isEmpty
  | c :: cs => pat.isPrefixOf (c :: cs) || containsSub pat cs

/-- Category inference of pattern 3 (`momo_parsing.py` lines 107–113) from
the matched entity: `data bundle`/`airtime` substrings give the
communications category `airtime_data`; the cash-out entity gives `other`;
anything else is treated as a bill/merchant, `utilities`. -/
def pattern3Category (party : String) : String :=
  let pl := party.toList.map Char.toLower
  if containsSub "data bundle".toList pl || containsSub "airtime".toList pl then
    "airtime_data"
  else if containsSub "mobile money rwanda".toList pl then "other"
  else "utilities"

/-- Category inference of pattern 4 (`momo_parsing.py` lines 134–140). -/
def pattern4Category (party : String) : String :=
  let pl := party.toList.map Char.toLower
  if containsSub "mokash".toList pl then "savings"
  else if containsSub "ejo heza".toList pl then "ejo_heza"
  else "other"

/-- The structured record returned by `parse_momo_sms`. -/
structure MomoRecord where
  date : Option String
  amount : ℚ
  txType : Option String
  category : String
  partyName : Option String
  partyPhone : Option String
  balance : ℚ
  rawText : String
deriving DecidableEq

/-- The balance field: `Balance:\s*([\d,]+)` searched in the cleaned text,
`0.0` when absent. -/
def balanceOf (clean : List Char) : ℚ :=
  match searchList tryBalanceAt clean with
  | some ds => amountOf ds
  | none => 0

/-- `parse_momo_sms` (`momo_parsing.py` lines 11–143): clean, then try the
four patterns in priority order; `none` models the `None` returned for an
unrecognised format (and for the falsy empty input). -/
def parseMomoSms (s : String) : Option MomoRecord :=
  if s = "" then none
  else
    let clean := cleanSms s
    match searchList tryP1At clean with
    | some (amt, party, ph, dt) =>
      some { date := some (String.mk dt)
             amount := amountOf amt
             txType := some "income"
             category := "other_income"
             partyName := some (titleCaseName (String.mk (trimWs party)))
             partyPhone := normalizePhone1 ph
             balance := balanceOf clean
             rawText := s }
    | none =>
      match searchList tryP2At clean with
      | some (amt, party, ph, dt) =>
        some { date := some (String.mk dt)
               amount := amountOf amt
               txType := some "expense"
               category := "transfer_out"
               partyName := some (titleCaseName (String.mk (trimWs party)))
               partyPhone := some (normalizePhone2 ph)
               balance := balanceOf clean
               rawText := s }
      | none =>
        match searchList tryP3At clean with
        | some (amt, party, dt) =>
          some { date := some (String.mk dt)
                 amount := amountOf amt
                 txType := some "expense"
                 category := pattern3Category (String.mk (trimWs party))
                 partyName := some (titleCaseName (String.mk (trimWs party)))
                 partyPhone := none
                 balance := balanceOf clean
                 rawText := s }
        | none =>
          match searchList tryP4At clean with
          | some (amt, party) =>
            some { date := (searchList tryCompletedAt clean).map String.mk
                   amount := amountOf amt
                   txType := some "expense"
                   category := pattern4Category (String.mk (trimWs party))
                   partyName := some (titleCaseName (String.mk (trimWs party)))
                   partyPhone := none
                   balance := balanceOf clean
                   rawText := s }
          | none => none

/-! ## Service-layer SMS parsing (`src/backend/app/services/sms_parser.py`)

`parse_momo_sms` of the service layer works on the upper-cased stripped text.
It always produces a reference: the first `(?:REF|TXN|ID)[:\s]*([A-Z0-9]+)`
match, or else the first 12 hex digits of the MD5 of the raw text, upper-cased
(`hashlib.md5(...).hexdigest()[:12].upper()`).  MD5 itself lives in the Python
standard library, outside this repository, so it enters the embedding as an
explicit function argument `md5hex`; `datetime.now()` likewise enters as the
explicit clock value `now`.
-/

/-- `[A-Z0-9]`, the reference-token class (the text has been upper-cased). -/
def isUpperAlnum (c : Char) : Bool :=
  ('A' ≤ c && c ≤ 'Z') || c.isDigit

/-- `(?:REF|TXN|ID)[:\s]*([A-Z0-9]+)` at one position (branches in source
order; the three literals start with distinct letters, and `[:\s]` is
disjoint from `[A-Z0-9]`, so the scan is deterministic). -/
def refHead (cs : List Char) : Option (List Char) :=
  match litStarts "REF".toList cs with
  | some r => some r
  | none =>
    match litStarts "TXN".toList cs with
    | some r => some r
    | none => litStarts "ID".toList cs

/-- After the matched `REF`/`TXN`/`ID` literal, skip `[:\s]*` and take the
nonempty `[A-Z0-9]+` token. -/
def tryRefAt (cs : List Char) : Option (List Char) :=
  match refHead cs with
  | none => none
  | some r1 =>
    match takeRun isUpperAlnum (r1.dropWhile (fun c => c == ':' || isWs c)) with
    | some (tok, _) => some tok
    | none => none

/-- `(?:RWF|FRW)\s*([\d,]+(?:\.\d{2})?)` at one position. -/
def tryAmtAt (cs : List Char) : Option (List Char) :=
  match (match litStarts "RWF".toList cs with
         | some r => some r
         | none => litStarts "FRW".toList cs) with
  | none => none
  | some r1 =>
    match takeRun isDigitComma (r1.dropWhile isWs) with
    | none => none
    | some (ds, r3) =>
      match r3 with
      | '.' :: r4 =>
        match exactDigits 2 r4 with
        | some (f2, _) => some (ds ++ '.' :: f2)
        | none => some ds
      | _ => some ds

/-- `7[238]\d{7}`, the national-significant phone tail. -/
def try7Rest (cs : List Char) : Option (List Char × List Char) :=
  match cs with
  | '7' :: c :: rest =>
    if c == '2' || c == '3' || c == '8' then
      match exactDigits 7 rest with
      | some (ds, r) => some ('7' :: c :: ds, r)
      | none => none
    else none
  | _ => none

/-- `(?:07[238]\d{7}|(?:\+?250)?7[238]\d{7})` at one position, trying, in
regex backtracking order: `07…`, `+250` prefix, `250` prefix, bare tail. -/
def tryPhoneAt (cs : List Char) : Option (List Char) :=
  match (match cs with
         | '0' :: rest =>
           match try7Rest rest with
           | some (p, _) => some ('0' :: p)
           | none => none
         | _ => none) with
  | some p => some p
  | none =>
    match (match cs with
           | '+' :: rest =>
             match litStarts "250".toList rest with
             | some r2 =>
               match try7Rest r2 with
               | some (p, _) => some ('+' :: '2' :: '5' :: '0' :: p)
               | none => none
             | none => none
           | _ => none) with
    | some p => some p
    | none =>
      match (match litStarts "250".toList cs with
             | some r =>
               match try7Rest r with
               | some (p, _) => some ('2' :: '5' :: '0' :: p)
               | none => none
             | none => none) with
      | some p => some p
      | none =>
        match try7Rest cs with
        | some (p, _) => some p
        | none => none

/-- Phone normalization of `sms_parser.py` lines 68–72: strip a leading
`+250` or `250` down to the local `0…` form. -/
def normalizeSvcPhone (p : List Char) : String :=
  match litStarts "+250".toList p with
  | some rest => String.mk ('0' :: rest)
  | none =>
    match litStarts "250".toList p with
    | some rest => String.mk ('0' :: rest)
    | none => String.mk p

/-- `float(amount_str.replace(',', ''))` on a `[\d,]+(\.\d{2})?` capture. -/
def svcAmountOf (chars : List Char) : ℚ :=
  let noComma := chars.filter (fun c => c != ',')
  let ip := noComma.takeWhile (fun c => c != '.')
  match noComma.dropWhile (fun c => c != '.') with
  | _ :: frac => (digitsToNat ip : ℚ) + (digitsToNat frac : ℚ) / 100
  | [] => (digitsToNat ip : ℚ)

/-- `income_keywords` (`sms_parser.py` lines 76–79). -/
def incomeKeywords : List String :=
  ["RECEIVED", "CREDITED", "DEPOSIT", "PAYMENT RECEIVED",
   "TRANSFER FROM", "YOU HAVE RECEIVED", "INCOMING"]

/-- `expense_keywords` (`sms_parser.py` lines 80–83). -/
def expenseKeywords : List String :=
  ["SENT", "PAID", "DEBITED", "WITHDRAWN", "TRANSFER TO",
   "PAYMENT TO", "PURCHASE", "BILL PAYMENT", "AIRTIME"]

/-- The record returned by the service-layer parser. -/
structure SvcRecord where
  transactionType : String
  amount : ℚ
  counterparty : Option String
  description : String
  reference : String
  transactionDate : ℕ
  confidence : ℚ
deriving DecidableEq

/-- The normalized text the service parser scans
(`sms_parser.py` line 31): upper-cased, stripped. -/
def svcText (s : String) : List Char :=
  trimWs (s.toList.map Char.toUpper)

/-- The reference field (`sms_parser.py` lines 48–54): the matched token, or
the first 12 hex digits of the raw text's MD5, upper-cased. -/
def svcReference (md5hex : String → String) (s : String) : String :=
  match searchList tryRefAt (svcText s) with
  | some tok => String.mk tok
  | none => String.mk (((md5hex s).toList.take 12).map Char.toUpper)

/-- Transaction type, description and confidence from the keyword lists
(`sms_parser.py` lines 85–102). -/
def svcBase (text : List Char) : String × String × ℚ :=
  if incomeKeywords.any (fun kw => containsSub kw.toList text) then
    ("income", "Mobile Money received", (8 : ℚ) / 10)
  else if expenseKeywords.any (fun kw => containsSub kw.toList text) then
    ("expense", "Mobile Money payment", (8 : ℚ) / 10)
  else ("expense", "Mobile Money transaction", (5 : ℚ) / 10)

/-- The context overrides (`sms_parser.py` lines 104–113): final type and
description. -/
def svcFinal (text : List Char) (base : String × String × ℚ) : String × String :=
  if containsSub "AIRTIME".toList text || containsSub "DATA".toList text ||
      containsSub "BUNDLE".toList text then (base.1, "Airtime/Data purchase")
  else if containsSub "BILL".toList text || containsSub "UTILITY".toList text then
    (base.1, "Bill payment")
  else if containsSub "SALARY".toList text || containsSub "WAGE".toList text then
    ("income", "Salary payment")
  else if containsSub "EJO HEZA".toList text then (base.1, "Ejo Heza contribution")
  else (base.1, base.2.1)

/-- Service-layer `parse_momo_sms` (`sms_parser.py` lines 13–115).  `md5hex`
stands for `hashlib.md5(...).hexdigest()` (a 32-hex-digit lowercase string in
Python) and `now` for `datetime.now()`. -/
def svcParseMomoSms (md5hex : String → String) (now : ℕ) (s : String) :
    Option SvcRecord :=
  if s = "" then none
  else
    match searchList tryAmtAt (svcText s) with
    | none => none
    | some amtChars =>
      some { transactionType := (svcFinal (svcText s) (svcBase (svcText s))).1
             amount := svcAmountOf amtChars
             counterparty := (searchList tryPhoneAt (svcText s)).map normalizeSvcPhone
             description := (svcFinal (svcText s) (svcBase (svcText s))).2
             reference := svcReference md5hex s
             transactionDate := now
             confidence := (svcBase (svcText s)).2.2 }

/-! ## Concrete pipeline inputs used by the verification -/

/-- Spec §8 literal case: a P2P transfer carrying the full international
12-digit counterparty number. -/
def transferMsg : String :=
  "1500 RWF transferred to JeanClaude GAKWAYA (250784801000) at 2026-02-05 01:30:22."

/-- The same transfer with the counterparty number in the local 10-digit
format accepted by pattern 2's phone alternation. -/
def transferMsgLocal : String :=
  "1500 RWF transferred to JeanClaude GAKWAYA (0784801000) at 2026-02-05 01:30:22."

/-- Spec §8 literal case: a data-bundle purchase. -/
def bundleMsg : String :=
  "A transaction of 200 RWF by Data Bundle MTN was completed at 2026-02-05 09:14:49. Balance:15335 RWF."

/-- A pattern-3 message whose entity name contains `data` but not
`data bundle`. -/
def mtnDataMsg : String :=
  "A transaction of 100 RWF by Mtn Data was completed at 2026-02-05 09:14:49."

/-- A token payment with no `completed at` clause. -/
def tokenPaymentMsg : String :=
  "Your payment of 300000 RWF to Mokash Savings with token 12345."

/-- Three encoded rows on consecutive days: behind a width-1 window starting
at row 0 the future window holds categories `[2, 1]`, a frequency tie. -/
def tieRows : List Row :=
  [⟨0, 5, 7, true⟩, ⟨1, 10, 2, true⟩, ⟨2, 20, 1, true⟩]

/-- Three encoded rows: behind a width-1 window starting at row 0 the future
window holds amounts `[1, 3]`. -/
def volRows : List Row :=
  [⟨0, 5, 0, true⟩, ⟨1, 1, 0, true⟩, ⟨2, 3, 0, true⟩]

/-- Fifteen transactions covering only three distinct calendar days. -/
def burstTxs : List Tx :=
  (List.range 15).map
    (fun i => { date := 100 + ((i % 3 : ℕ) : ℤ), amount := 1000,
                category := "Groceries", txType := "expense" })

/-- Two transactions on the same calendar day. -/
def dupDayTxs : List Tx :=
  [⟨5, 100, "Groceries", "expense"⟩, ⟨5, 200, "Transport", "expense"⟩]

/-- A two-transaction history and a permutation of it. -/
def twoTxs : List Tx :=
  [⟨3, 5, "Groceries", "expense"⟩, ⟨6, 7, "Transport", "expense"⟩]

/-- `twoTxs`, supplied in the opposite order. -/
def twoTxsRev : List Tx :=
  [⟨6, 7, "Transport", "expense"⟩, ⟨3, 5, "Groceries", "expense"⟩]

/-- A stand-in for `hashlib.md5(...).hexdigest()`: a constant 32-hex-digit
function (the parser only reads the digest text). -/
def md5Const : String → String :=
  fun _ => "0123456789abcdef0123456789abcdef"

/-- A service-layer message carrying an explicit `REF` token. -/
def refTokenMsg : String :=
  "You have received RWF 5,000 from 0781234567 Ref: ABC123"

/-- The record the service parser produces for `refTokenMsg` at clock 0. -/
def refTokenRec : SvcRecord :=
  { transactionType := "income", amount := 5000,
    counterparty := some "0781234567",
    description := "Mobile Money received", reference := "ABC123",
    transactionDate := 0, confidence := 8/10 }

/-! ## Claim theorems -/

/-- **C1** (code_bug evidence).  The claim — and spec §4.3/§4.4 — demand that
training and inference encode the payday-proximity flag from the same fixed
day-of-month set and the essential flag from the same category list.  The two
embedded encoders disagree: day 16 is payday-proximate only for training,
day 28 only for inference; `Health` (and `Transportation`, `Insurance`) are
essential only for training, `Rent` (and `Transport`) only for inference.  So
the two encoders are not extensionally equal on common inputs. -/
theorem C1_training_inference_encoders_diverge :
    trainingIsPaydayProximity 16 = 1 ∧ inferenceIsPaydayProximity 16 = 0 ∧
    inferenceIsPaydayProximity 28 = 1 ∧ trainingIsPaydayProximity 28 = 0 ∧
    trainingIsEssential "Health" = 1 ∧ inferenceIsEssential "Health" = 0 ∧
    inferenceIsEssential "Rent" = 1 ∧ trainingIsEssential "Rent" = 0 := by
  decide

/-- **C7** (code_bug evidence).  On the spec's literal test message with the
full international 12-digit counterparty number, `parse_momo_sms` returns
`None`: pattern 2's phone alternation `(25\d{9}|07\d{8})` admits only 11
digits after `25`, although the pattern's own doc-comment example carries a
12-digit number.  The same message with the local 10-digit number parses to
amount 1500, an expense, and the normalized local phone — isolating the
12-digit number as what breaks the claimed parse. -/
theorem C7_international_phone_unparseable :
    parseMomoSms transferMsg = none ∧
    (parseMomoSms transferMsgLocal).map (fun r => (r.amount, r.txType, r.partyPhone)) =
      some (1500, some "expense", some "0784801000") := by
  decide

/-- **C8 counterexample**.  The claim promises the communications category
for every pattern-3 entity containing a `data` substring; the entity
`Mtn Data` contains `data` yet is categorised `utilities`, because the code
keys on the longer substring `data bundle`. -/
theorem C8_counterexample_bare_data_entity :
    containsSub "data".toList ("Mtn Data".toList.map Char.toLower) = true ∧
    (parseMomoSms mtnDataMsg).map (fun r => (r.txType, r.category)) =
      some (some "expense", "utilities") ∧
    "utilities" ≠ "airtime_data" := by
  decide

/-- **C8** (amended).  Pattern-3 messages whose entity contains `data bundle`
or `airtime` (lower-cased) are tagged with the communications category
`airtime_data`; in particular the spec's literal data-bundle message parses
to amount 200, an expense, category `airtime_data`, with the balance and
timestamp extracted. -/
theorem C8_bundle_airtime_category :
    (∀ party : String,
      (containsSub "data bundle".toList (party.toList.map Char.toLower) = true ∨
       containsSub "airtime".toList (party.toList.map Char.toLower) = true) →
      pattern3Category party = "airtime_data") ∧
    parseMomoSms bundleMsg =
      some { date := some "2026-02-05 09:14:49", amount := 200,
             txType := some "expense", category := "airtime_data",
             partyName := some "Data Bundle MTN", partyPhone := none,
             balance := 15335, rawText := bundleMsg } := by
  constructor
  · intro party h
    have hb : (containsSub "data bundle".toList (party.toList.map Char.toLower) ||
               containsSub "airtime".toList (party.toList.map Char.toLower)) = true := by
      rcases h with h | h
      · rw [h, Bool.true_or]
      · rw [h, Bool.or_true]
    simp only [pattern3Category]
    rw [hb]
    simp
  · decide

/-- **C8 witness**: the amended universal statement applied to the concrete
entity `Data Bundle MTN`. -/
theorem C8_witness : pattern3Category "Data Bundle MTN" = "airtime_data" :=
  C8_bundle_airtime_category.1 "Data Bundle MTN" (Or.inl (by decide))

/-- **C9**.  A successfully parsed pattern-4 token payment (no
`completed at` clause anywhere in the message) yields a structured expense
record with the amount set and the date field `None`: a successful parse does
not guarantee a timestamp. -/
theorem C9_parse_without_timestamp :
    parseMomoSms tokenPaymentMsg =
      some { date := none, amount := 300000, txType := some "expense",
             category := "savings", partyName := some "Mokash Savings",
             partyPhone := none, balance := 0, rawText := tokenPaymentMsg } := by
  decide

/-- The handled scale denominator is never zero. -/
theorem handleZeros_ne_zero (d : ℝ) : handleZeros d ≠ 0 := by
  unfold handleZeros
  split
  · exact one_ne_zero
  · assumption

/-- Every valid scaler strategy round-trips any real value. -/
theorem scaler_roundtrip (s : ScalerState) (hs : s.Valid) (y : ℝ) :
    scalerInverse s (scalerTransform s y) = y := by
  cases s with
  | passthrough => rfl
  | rollingPeak p =>
    exact div_mul_cancel₀ y hs
  | minmax mn mx =>
    simp only [scalerTransform, scalerInverse]
    rw [div_mul_cancel₀ _ (handleZeros_ne_zero (mx - mn))]
    ring
  | robust med iqr =>
    simp only [scalerTransform, scalerInverse]
    rw [div_mul_cancel₀ _ (handleZeros_ne_zero iqr)]
    ring

/-- **C2**.  For every non-negative amount and every supported scaling
strategy, the inverse transform undoes the forward transform exactly, and on
the log-compressed amount path — scaler inverse first, `expm1` second, the
order of `predict_next_week` lines 150–154 — the full composition
`expm1 (inverse_scale (scale (log1p x)))` returns the amount. -/
theorem C2_inverse_undoes_transform (s : ScalerState) (x : ℝ)
    (hs : s.Valid) (hx : 0 ≤ x) :
    scalerInverse s (scalerTransform s x) = x ∧
    expm1 (scalerInverse s (scalerTransform s (log1p x))) = x := by
  refine ⟨scaler_roundtrip s hs x, ?_⟩
  rw [scaler_roundtrip s hs (log1p x)]
  unfold expm1 log1p
  rw [Real.exp_log (by linarith : (0:ℝ) < 1 + x)]
  ring

/-- **C2 witness**: the round trip at the global min-max strategy fitted on
`[0, 2]`, evaluated at amount `3`. -/
theorem C2_witness :
    ScalerState.Valid (ScalerState.minmax 0 2) ∧ (0:ℝ) ≤ 3 ∧
    (scalerInverse (ScalerState.minmax 0 2)
        (scalerTransform (ScalerState.minmax 0 2) 3) = 3 ∧
     expm1 (scalerInverse (ScalerState.minmax 0 2)
        (scalerTransform (ScalerState.minmax 0 2) (log1p 3))) = 3) :=
  ⟨trivial, by norm_num,
   C2_inverse_undoes_transform (ScalerState.minmax 0 2) 3 trivial (by norm_num)⟩

/-- **C4** (code_bug evidence).  The warmup gate of `predict_next_week`
counts transactions (`len(transactions) < 15`), not days of history: fifteen
same-burst transactions covering only three distinct calendar days pass the
gate and end in the structured error state (their duplicate-date index makes
`reindex` raise inside the `try`), not in the WARMUP state the claim
requires for fewer than 15 days of history.  The gate that does hold is the
transaction-count one, independent of the external model. -/
theorem C4_warmup_gate_counts_transactions :
    (∀ (α : Type) (model : List DailyBucket → α),
      predictNextWeek model burstTxs = PredictResult.error) ∧
    burstTxs.length = 15 ∧ distinctDays burstTxs = 3 ∧
    (∀ (α : Type) (model : List DailyBucket → α) (txs : List Tx),
      txs.length < 15 →
        predictNextWeek model txs = PredictResult.warmup warmupMessage) := by
  refine ⟨?_, by decide, by decide, ?_⟩
  · intro α model
    unfold predictNextWeek
    rw [if_neg (by decide : ¬ burstTxs.length < 15)]
    rw [show inferencePreprocess burstTxs = none from by decide]
  · intro α model txs h
    unfold predictNextWeek
    rw [if_pos h]

/-- **C4 witness**: the theorem applied to the concrete three-day burst and
to an empty history, with a constant stand-in model. -/
theorem C4_witness :
    predictNextWeek (fun _ => ()) burstTxs = PredictResult.error ∧
    predictNextWeek (fun _ => ()) ([] : List Tx) =
      PredictResult.warmup warmupMessage :=
  ⟨C4_warmup_gate_counts_transactions.1 Unit (fun _ => ()),
   C4_warmup_gate_counts_transactions.2.2.2 Unit (fun _ => ()) [] (by decide)⟩

/-- A `min`-fold either keeps its seed or lands in the list. -/
theorem foldl_min_eq_or_mem {α : Type} [LinearOrder α] (l : List α) (a : α) :
    l.foldl min a = a ∨ l.foldl min a ∈ l := by
  induction l generalizing a with
  | nil => exact Or.inl rfl
  | cons b bs ih =>
    rw [List.foldl_cons]
    rcases ih (min a b) with h | h
    · rcases min_choice a b with hm | hm
      · exact Or.inl (by rw [h, hm])
      · exact Or.inr (by rw [h, hm]; exact List.mem_cons_self b bs)
    · exact Or.inr (List.mem_cons_of_mem b h)

/-- A `min`-fold is bounded by its seed. -/
theorem foldl_min_le_init {α : Type} [LinearOrder α] (l : List α) (a : α) :
    l.foldl min a ≤ a := by
  induction l generalizing a with
  | nil => exact le_refl a
  | cons b bs ih =>
    rw [List.foldl_cons]
    exact le_trans (ih (min a b)) (min_le_left a b)

/-- A `min`-fold is bounded by every list element. -/
theorem foldl_min_le_mem {α : Type} [LinearOrder α] (l : List α) :
    ∀ (a x : α), x ∈ l → l.foldl min a ≤ x := by
  induction l with
  | nil => intro a x hx; cases hx
  | cons b bs ih =>
    intro a x hx
    rw [List.foldl_cons]
    rcases List.mem_cons.mp hx with h | h
    · subst h
      exact le_trans (foldl_min_le_init bs (min a x)) (min_le_right a x)
    · exact ih (min a b) x h

/-- A `max`-fold either keeps its seed or lands in the list. -/
theorem foldl_max_eq_or_mem {α : Type} [LinearOrder α] (l : List α) (a : α) :
    l.foldl max a = a ∨ l.foldl max a ∈ l := by
  induction l generalizing a with
  | nil => exact Or.inl rfl
  | cons b bs ih =>
    rw [List.foldl_cons]
    rcases ih (max a b) with h | h
    · rcases max_choice a b with hm | hm
      · exact Or.inl (by rw [h, hm])
      · exact Or.inr (by rw [h, hm]; exact List.mem_cons_self b bs)
    · exact Or.inr (List.mem_cons_of_mem b h)

/-- A `max`-fold dominates its seed. -/
theorem le_foldl_max_init {α : Type} [LinearOrder α] (l : List α) (a : α) :
    a ≤ l.foldl max a := by
  induction l generalizing a with
  | nil => exact le_refl a
  | cons b bs ih =>
    rw [List.foldl_cons]
    exact le_trans (le_max_left a b) (ih (max a b))

/-- A `max`-fold dominates every list element. -/
theorem le_foldl_max_mem {α : Type} [LinearOrder α] (l : List α) :
    ∀ (a x : α), x ∈ l → x ≤ l.foldl max a := by
  induction l with
  | nil => intro a x hx; cases hx
  | cons b bs ih =>
    intro a x hx
    rw [List.foldl_cons]
    rcases List.mem_cons.mp hx with h | h
    · subst h
      exact le_trans (le_max_right a x) (le_foldl_max_init bs (max a x))
    · exact ih (max a b) x h

/-- `listMin` of a nonempty list is in the list. -/
theorem listMin_mem (l : List ℤ) (h : l ≠ []) : listMin l ∈ l := by
  cases l with
  | nil => exact absurd rfl h
  | cons d ds =>
    show ds.foldl min d ∈ d :: ds
    rcases foldl_min_eq_or_mem ds d with h' | h'
    · rw [h']; exact List.mem_cons_self d ds
    · exact List.mem_cons_of_mem d h'

/-- `listMin` bounds every element. -/
theorem listMin_le (l : List ℤ) (x : ℤ) (hx : x ∈ l) : listMin l ≤ x := by
  cases l with
  | nil => cases hx
  | cons d ds =>
    show ds.foldl min d ≤ x
    rcases List.mem_cons.mp hx with h | h
    · subst h; exact foldl_min_le_init ds x
    · exact foldl_min_le_mem ds d x h

/-- `listMax` of a nonempty list is in the list. -/
theorem listMax_mem (l : List ℤ) (h : l ≠ []) : listMax l ∈ l := by
  cases l with
  | nil => exact absurd rfl h
  | cons d ds =>
    show ds.foldl max d ∈ d :: ds
    rcases foldl_max_eq_or_mem ds d with h' | h'
    · rw [h']; exact List.mem_cons_self d ds
    · exact List.mem_cons_of_mem d h'

/-- Every element bounds `listMax` from below. -/
theorem le_listMax (l : List ℤ) (x : ℤ) (hx : x ∈ l) : x ≤ listMax l := by
  cases l with
  | nil => cases hx
  | cons d ds =>
    show x ≤ ds.foldl max d
    rcases List.mem_cons.mp hx with h | h
    · subst h; exact le_foldl_max_init ds x
    · exact le_foldl_max_mem ds d x h

/-- `listMin` only depends on the multiset of elements. -/
theorem listMin_perm {l₁ l₂ : List ℤ} (h : l₁.Perm l₂) (hne : l₁ ≠ []) :
    listMin l₁ = listMin l₂ := by
  have hne₂ : l₂ ≠ [] := by
    intro e
    exact hne (List.length_eq_zero.mp (by rw [h.length_eq, e, List.length_nil]))
  exact le_antisymm
    (listMin_le l₁ (listMin l₂) (h.mem_iff.mpr (listMin_mem l₂ hne₂)))
    (listMin_le l₂ (listMin l₁) (h.mem_iff.mp (listMin_mem l₁ hne)))

/-- `listMax` only depends on the multiset of elements. -/
theorem listMax_perm {l₁ l₂ : List ℤ} (h : l₁.Perm l₂) (hne : l₁ ≠ []) :
    listMax l₁ = listMax l₂ := by
  have hne₂ : l₂ ≠ [] := by
    intro e
    exact hne (List.length_eq_zero.mp (by rw [h.length_eq, e, List.length_nil]))
  exact le_antisymm
    (le_listMax l₂ (listMax l₁) (h.mem_iff.mp (listMax_mem l₁ hne)))
    (le_listMax l₁ (listMax l₂) (h.mem_iff.mpr (listMax_mem l₂ hne₂)))

/-- On a duplicate-free date column, the row found for a date does not depend
on the order the transactions were supplied in. -/
theorem find?_date_eq_of_perm (txs txs' : List Tx) (h : txs.Perm txs')
    (hnd : (txDates txs).Nodup) (d : ℤ) :
    txs.find? (fun t => t.date == d) = txs'.find? (fun t => t.date == d) := by
  cases h1 : txs.find? (fun t => t.date == d) with
  | none =>
    have hall := List.find?_eq_none.mp h1
    symm
    apply List.find?_eq_none.mpr
    intro x hx
    exact hall x (h.mem_iff.mpr hx)
  | some t =>
    have ht : t ∈ txs := List.mem_of_find?_eq_some h1
    have hpt : (t.date == d) = true := List.find?_some (p := fun t : Tx => t.date == d) h1
    cases h2 : txs'.find? (fun t => t.date == d) with
    | none =>
      have hall := List.find?_eq_none.mp h2
      exact absurd hpt (hall t (h.mem_iff.mp ht))
    | some t' =>
      have ht' : t' ∈ txs := h.mem_iff.mpr (List.mem_of_find?_eq_some h2)
      have hpt' : (t'.date == d) = true :=
        List.find?_some (p := fun t : Tx => t.date == d) h2
      have hdd : t.date = t'.date := by
        rw [eq_of_beq hpt, eq_of_beq hpt']
      have : t = t' :=
        List.inj_on_of_nodup_map (f := fun t : Tx => t.date) hnd ht ht' hdd
      rw [this]

/-- The reindexed row for a date carries that date. -/
theorem bucketAt_date (txs : List Tx) (d : ℤ) : (bucketAt txs d).date = d := by
  unfold bucketAt
  cases txs.find? (fun t => t.date == d) <;> rfl

/-- A date with no transaction gets the `fillna` placeholder row. -/
theorem bucketAt_of_no_tx (txs : List Tx) (d : ℤ)
    (hno : ∀ t ∈ txs, t.date ≠ d) :
    bucketAt txs d = ⟨d, 0, "No_Transaction", "None", false⟩ := by
  unfold bucketAt
  rw [List.find?_eq_none.mpr (fun t ht => by simpa using hno t ht)]

/-- On a duplicate-free date column, reindexed rows are order-independent. -/
theorem bucketAt_perm (txs txs' : List Tx) (h : txs.Perm txs')
    (hnd : (txDates txs).Nodup) (d : ℤ) :
    bucketAt txs d = bucketAt txs' d := by
  unfold bucketAt
  rw [find?_date_eq_of_perm txs txs' h hnd d]

/-- **C3** (code_bug evidence plus the intended invariant).  Two same-day
transactions make the daily aggregator raise (`reindex` on a duplicate date
index), modelled as `none` — no buckets at all, against the claim's "exactly
one bucket per calendar date".  On inputs with pairwise-distinct dates the
intended invariant does hold, order-independently: the bucket dates are
exactly the gap-free calendar range from the earliest to the latest
transaction date, and every date with no transaction carries amount `0`, the
`No_Transaction` sentinel, and no activity. -/
theorem C3_daily_bucket_invariant (txs txs' : List Tx) (hne : txs ≠ [])
    (hnd : (txDates txs).Nodup) (hperm : txs'.Perm txs) :
    dailyResample dupDayTxs = none ∧
    ∃ bs, dailyResample txs = some bs ∧ dailyResample txs' = some bs ∧
      bs.map (fun b => b.date) =
        dateRange (minDate txs) ((maxDate txs - minDate txs).toNat + 1) ∧
      ∀ b ∈ bs, (∀ t ∈ txs, t.date ≠ b.date) →
        b.amount = 0 ∧ b.category = "No_Transaction" ∧ b.hasActivity = false := by
  refine ⟨by decide, ?_⟩
  have hne' : txs' ≠ [] := by
    intro e
    rw [e] at hperm
    exact hne hperm.nil_eq.symm
  have hdates : (txDates txs').Perm (txDates txs) := by
    unfold txDates
    exact hperm.map (fun t => t.date)
  have hnd' : (txDates txs').Nodup := hdates.nodup_iff.mpr hnd
  have hmin : minDate txs' = minDate txs := by
    unfold minDate
    exact listMin_perm hdates (by
      intro e
      exact hne' (List.map_eq_nil_iff.mp e))
  have hmax : maxDate txs' = maxDate txs := by
    unfold maxDate
    exact listMax_perm hdates (by
      intro e
      exact hne' (List.map_eq_nil_iff.mp e))
  refine ⟨(dateRange (minDate txs) ((maxDate txs - minDate txs).toNat + 1)).map (bucketAt txs),
    ?_, ?_, ?_, ?_⟩
  · unfold dailyResample
    rw [if_neg hne, if_pos hnd]
  · unfold dailyResample
    rw [if_neg hne', if_pos hnd', hmin, hmax]
    refine congrArg some (List.map_congr_left ?_)
    intro d _
    exact (bucketAt_perm txs txs' hperm.symm hnd d).symm
  · rw [List.map_map]
    have : ((fun b : DailyBucket => b.date) ∘ bucketAt txs) = id :=
      funext (fun d => bucketAt_date txs d)
    rw [this, List.map_id]
  · intro b hb hno
    rcases List.mem_map.mp hb with ⟨d, _, hd⟩
    have hbd : b.date = d := by rw [← hd, bucketAt_date]
    have : bucketAt txs d = ⟨d, 0, "No_Transaction", "None", false⟩ :=
      bucketAt_of_no_tx txs d (fun t ht => hbd ▸ hno t ht)
    rw [← hd, this]
    exact ⟨rfl, rfl, rfl⟩

/-- **C3 witness**: the invariant at a concrete two-transaction history and
its reversal. -/
theorem C3_witness :
    dailyResample dupDayTxs = none ∧
    ∃ bs, dailyResample twoTxs = some bs ∧ dailyResample twoTxsRev = some bs ∧
      bs.map (fun b => b.date) =
        dateRange (minDate twoTxs) ((maxDate twoTxs - minDate twoTxs).toNat + 1) ∧
      ∀ b ∈ bs, (∀ t ∈ twoTxs, t.date ≠ b.date) →
        b.amount = 0 ∧ b.category = "No_Transaction" ∧ b.hasActivity = false :=
  C3_daily_bucket_invariant twoTxs twoTxsRev (by decide) (by decide)
    (List.Perm.swap _ _ _)

/-- Every element bounds a `max`-fold seeded with `0`. -/
theorem le_foldr_max_mem (m : List ℕ) (x : ℕ) (hx : x ∈ m) :
    x ≤ m.foldr max 0 := by
  induction m with
  | nil => cases hx
  | cons a as ih =>
    rw [List.foldr_cons]
    rcases List.mem_cons.mp hx with h | h
    · subst h; exact le_max_left x (as.foldr max 0)
    · exact le_trans (ih h) (le_max_right a (as.foldr max 0))

/-- A `max`-fold seeded with `0` is an element or zero. -/
theorem foldr_max_mem_or_zero (m : List ℕ) :
    m.foldr max 0 ∈ m ∨ m.foldr max 0 = 0 := by
  induction m with
  | nil => exact Or.inr rfl
  | cons a as ih =>
    rw [List.foldr_cons]
    rcases max_choice a (as.foldr max 0) with h | h
    · exact Or.inl (by rw [h]; exact List.mem_cons_self a as)
    · rcases ih with h' | h'
      · exact Or.inl (by rw [h]; exact List.mem_cons_of_mem a h')
      · exact Or.inr (by rw [h, h'])

/-- No multiplicity exceeds `maxCount`. -/
theorem count_le_maxCount (l : List ℕ) (v : ℕ) (hv : v ∈ l) :
    l.count v ≤ maxCount l := by
  unfold maxCount
  exact le_foldr_max_mem _ _ (List.mem_map.mpr ⟨v, hv, rfl⟩)

/-- On a nonempty list some value attains `maxCount`. -/
theorem maxCount_attained (l : List ℕ) (h : l ≠ []) :
    ∃ v ∈ l, l.count v = maxCount l := by
  rcases foldr_max_mem_or_zero (l.map (fun v => l.count v)) with hm | hm
  · rcases List.mem_map.mp hm with ⟨v, hv, he⟩
    exact ⟨v, hv, he⟩
  · cases l with
    | nil => exact absurd rfl h
    | cons a as =>
      refine ⟨a, List.mem_cons_self a as, ?_⟩
      have h1 := count_le_maxCount (a :: as) a (List.mem_cons_self a as)
      have h2 : maxCount (a :: as) = 0 := hm
      have h3 : 1 ≤ (a :: as).count a := by
        rw [List.count_cons_self]
        omega
      omega

/-- Membership in the pandas mode set. -/
theorem mem_modes_iff (l : List ℕ) (v : ℕ) :
    v ∈ modes l ↔ v ∈ l ∧ l.count v = maxCount l := by
  unfold modes
  rw [List.mem_filter, List.mem_dedup]
  simp

/-- The mode set of a nonempty list is nonempty. -/
theorem modes_ne_nil (l : List ℕ) (h : l ≠ []) : modes l ≠ [] := by
  rcases maxCount_attained l h with ⟨v, hv, he⟩
  intro e
  have hvm : v ∈ modes l := (mem_modes_iff l v).mpr ⟨hv, he⟩
  rw [e] at hvm
  cases hvm

/-- `listMinNat` of a nonempty list is in the list. -/
theorem listMinNat_mem (l : List ℕ) (h : l ≠ []) : listMinNat l ∈ l := by
  cases l with
  | nil => exact absurd rfl h
  | cons d ds =>
    show ds.foldl min d ∈ d :: ds
    rcases foldl_min_eq_or_mem ds d with h' | h'
    · rw [h']; exact List.mem_cons_self d ds
    · exact List.mem_cons_of_mem d h'

/-- `listMinNat` bounds every element. -/
theorem listMinNat_le (l : List ℕ) (x : ℕ) (hx : x ∈ l) : listMinNat l ≤ x := by
  cases l with
  | nil => cases hx
  | cons d ds =>
    show ds.foldl min d ≤ x
    rcases List.mem_cons.mp hx with h | h
    · subst h; exact foldl_min_le_init ds x
    · exact foldl_min_le_mem ds d x h

/-- `mode().iloc[0]` is a maximal-frequency value of the list, and the least
such value. -/
theorem pandasModeHead_spec (l : List ℕ) (h : l ≠ []) :
    pandasModeHead l ∈ l ∧ l.count (pandasModeHead l) = maxCount l ∧
    ∀ v ∈ l, l.count v = maxCount l → pandasModeHead l ≤ v := by
  have hm : pandasModeHead l ∈ modes l := listMinNat_mem _ (modes_ne_nil l h)
  have h1 := (mem_modes_iff l _).mp hm
  refine ⟨h1.1, h1.2, ?_⟩
  intro v hv hc
  exact listMinNat_le _ _ ((mem_modes_iff l v).mpr ⟨hv, hc⟩)

/-- Indexing a map over `List.range`. -/
theorem getD_map_range {β : Type} (f : ℕ → β) (k i : ℕ) (d : β) (h : i < k) :
    ((List.range k).map f).getD i d = f i := by
  rw [List.getD_eq_getElem?_getD, List.getElem?_map, List.getElem?_range h]
  rfl

/-- **C5 counterexample**.  Behind the width-1 window at start 0 of
`tieRows`, the future window holds categories `[2, 1]`, each once.  The
builder's label is `1` — pandas `mode()` sorts the tied modes ascending and
`.iloc[0]` takes the least — while the claimed first-chronological tie-break
gives `2`. -/
theorem C5_counterexample_tie_break :
    (targetsCategory tieRows 1 7).getD 0 0 = 1 ∧
    specCategoryLabel (futureOfWindow tieRows 1 7 0) = 2 ∧ (1 : ℕ) ≠ 2 := by
  decide

/-- **C5** (amended).  For every encoded-row series and every window start
index, the category label is a most frequent category of the future window
— and among the tied most-frequent categories the *least encoded value*
(pandas `mode()` sort order), not the first chronological occurrence — and
is `0` when the future window is empty. -/
theorem C5_category_label_least_mode (df : List Row)
    (seqLen predictionDays i : ℕ) (hi : i < df.length - seqLen) :
    (futureOfWindow df seqLen predictionDays i = [] →
      (targetsCategory df seqLen predictionDays).getD i 0 = 0) ∧
    (futureOfWindow df seqLen predictionDays i ≠ [] →
      (targetsCategory df seqLen predictionDays).getD i 0 ∈
        (futureOfWindow df seqLen predictionDays i).map (fun r => r.catEnc) ∧
      ((futureOfWindow df seqLen predictionDays i).map (fun r => r.catEnc)).count
          ((targetsCategory df seqLen predictionDays).getD i 0) =
        maxCount ((futureOfWindow df seqLen predictionDays i).map (fun r => r.catEnc)) ∧
      ∀ v ∈ (futureOfWindow df seqLen predictionDays i).map (fun r => r.catEnc),
        ((futureOfWindow df seqLen predictionDays i).map (fun r => r.catEnc)).count v =
          maxCount ((futureOfWindow df seqLen predictionDays i).map (fun r => r.catEnc)) →
        (targetsCategory df seqLen predictionDays).getD i 0 ≤ v) := by
  have hgd : (targetsCategory df seqLen predictionDays).getD i 0 =
      categoryTarget (futureOfWindow df seqLen predictionDays i) := by
    unfold targetsCategory
    exact getD_map_range _ _ i 0 hi
  rw [hgd]
  constructor
  · intro he
    unfold categoryTarget
    rw [if_pos he]
  · intro hne
    unfold categoryTarget
    rw [if_neg hne]
    have hmap : (futureOfWindow df seqLen predictionDays i).map (fun r => r.catEnc) ≠ [] := by
      intro e
      exact hne (List.map_eq_nil_iff.mp e)
    exact pandasModeHead_spec _ hmap

/-- **C5 witness**: the amended statement at the concrete series `tieRows`,
window width 1, horizon 7, start 0. -/
theorem C5_witness :
    (futureOfWindow tieRows 1 7 0 = [] →
      (targetsCategory tieRows 1 7).getD 0 0 = 0) ∧
    (futureOfWindow tieRows 1 7 0 ≠ [] →
      (targetsCategory tieRows 1 7).getD 0 0 ∈
        (futureOfWindow tieRows 1 7 0).map (fun r => r.catEnc) ∧
      ((futureOfWindow tieRows 1 7 0).map (fun r => r.catEnc)).count
          ((targetsCategory tieRows 1 7).getD 0 0) =
        maxCount ((futureOfWindow tieRows 1 7 0).map (fun r => r.catEnc)) ∧
      ∀ v ∈ (futureOfWindow tieRows 1 7 0).map (fun r => r.catEnc),
        ((futureOfWindow tieRows 1 7 0).map (fun r => r.catEnc)).count v =
          maxCount ((futureOfWindow tieRows 1 7 0).map (fun r => r.catEnc)) →
        (targetsCategory tieRows 1 7).getD 0 0 ≤ v) :=
  C5_category_label_least_mode tieRows 1 7 0 (by decide)

/-- Mean of the future amounts `[1, 3]`. -/
theorem mean_one_three : listMeanR [(1:ℝ), 3] = 2 := by
  unfold listMeanR
  norm_num [List.sum_cons, List.sum_nil]

/-- Sample standard deviation (`ddof = 1`) of the future amounts `[1, 3]`. -/
theorem std_one_three : sampleStd [(1:ℝ), 3] = Real.sqrt 2 := by
  unfold sampleStd
  rw [mean_one_three]
  norm_num [List.map_cons, List.map_nil, List.sum_cons, List.sum_nil]

/-- `√2 ≤ 2`. -/
theorem sqrt_two_le_two : Real.sqrt 2 ≤ 2 := by
  nlinarith [Real.sq_sqrt (show (0:ℝ) ≤ 2 by norm_num), Real.sqrt_nonneg 2,
    sq_nonneg (Real.sqrt 2 - 2)]

/-- **C6 counterexample**.  Behind the width-1 window at start 0 of
`volRows`, the future amounts are `[1, 3]`.  The builder's volatility label
divides the standard deviation by `mean + 1e-8` — the code's guarded
denominator — so it differs from the claimed `min(stddev/mean, cap)/cap`,
which divides by the bare mean. -/
theorem C6_counterexample_epsilon_guard :
    (targetsVolatility volRows 1 7).getD 0 0 ≠
      specVolatilityLabel (futureOfWindow volRows 1 7 0) := by
  have hgd : (targetsVolatility volRows 1 7).getD 0 0 =
      volatilityTarget (futureOfWindow volRows 1 7 0) := by
    unfold targetsVolatility
    exact getD_map_range _ _ 0 0 (by decide)
  rw [hgd]
  have hfut : futureOfWindow volRows 1 7 0 =
      [{ date := 1, amount := 1, catEnc := 0, isExpense := true },
       { date := 2, amount := 3, catEnc := 0, isExpense := true }] := by decide
  rw [hfut]
  have hmap : ([{ date := 1, amount := (1:ℚ), catEnc := 0, isExpense := true },
       { date := 2, amount := 3, catEnc := 0, isExpense := true }] : List Row).map
        (fun r => (r.amount : ℝ)) = [(1:ℝ), 3] := by
    norm_num [List.map_cons, List.map_nil]
  unfold volatilityTarget specVolatilityLabel
  rw [if_pos (by decide :
    1 < ([{ date := 1, amount := (1:ℚ), catEnc := 0, isExpense := true },
          { date := 2, amount := 3, catEnc := 0, isExpense := true }] : List Row).length)]
  rw [hmap, mean_one_three, std_one_three]
  have h0 : 0 < Real.sqrt 2 := Real.sqrt_pos.mpr (by norm_num)
  have hm1 : min (Real.sqrt 2 / (2 + 1/100000000)) 2 =
      Real.sqrt 2 / (2 + 1/100000000) := by
    apply min_eq_left
    calc Real.sqrt 2 / (2 + 1/100000000) ≤ Real.sqrt 2 := by
          apply div_le_self (Real.sqrt_nonneg 2)
          norm_num
      _ ≤ 2 := sqrt_two_le_two
  have hm2 : min (Real.sqrt 2 / 2) 2 = Real.sqrt 2 / 2 := by
    apply min_eq_left
    calc Real.sqrt 2 / 2 ≤ Real.sqrt 2 := by
          apply div_le_self (Real.sqrt_nonneg 2)
          norm_num
      _ ≤ 2 := sqrt_two_le_two
  rw [hm1, hm2]
  intro h
  field_simp at h
  nlinarith [h0]

/-- **C6** (amended).  For every window, the volatility label is the fixed
neutral `0.5` when the future window has at most one point; with at least two
points it equals `min(stddev / (mean + 1e-8), 2) / 2` — the code guards the
mean with `1e-8` before dividing — and, for non-negative amounts, the label
always lies in `[0, 1]`. -/
theorem C6_volatility_label (df : List Row) (seqLen predictionDays i : ℕ)
    (hi : i < df.length - seqLen)
    (hpos : ∀ r ∈ futureOfWindow df seqLen predictionDays i, 0 ≤ r.amount) :
    ((futureOfWindow df seqLen predictionDays i).length ≤ 1 →
      (targetsVolatility df seqLen predictionDays).getD i 0 = 0.5) ∧
    (1 < (futureOfWindow df seqLen predictionDays i).length →
      (targetsVolatility df seqLen predictionDays).getD i 0 =
        min (sampleStd ((futureOfWindow df seqLen predictionDays i).map
              (fun r => (r.amount : ℝ))) /
             (listMeanR ((futureOfWindow df seqLen predictionDays i).map
              (fun r => (r.amount : ℝ))) + 1 / 100000000)) 2 / 2) ∧
    0 ≤ (targetsVolatility df seqLen predictionDays).getD i 0 ∧
    (targetsVolatility df seqLen predictionDays).getD i 0 ≤ 1 := by
  have hgd : (targetsVolatility df seqLen predictionDays).getD i 0 =
      volatilityTarget (futureOfWindow df seqLen predictionDays i) := by
    unfold targetsVolatility
    exact getD_map_range _ _ i 0 hi
  rw [hgd]
  by_cases hlen : 1 < (futureOfWindow df seqLen predictionDays i).length
  · have hvt : volatilityTarget (futureOfWindow df seqLen predictionDays i) =
        min (sampleStd ((futureOfWindow df seqLen predictionDays i).map
              (fun r => (r.amount : ℝ))) /
             (listMeanR ((futureOfWindow df seqLen predictionDays i).map
              (fun r => (r.amount : ℝ))) + 1 / 100000000)) 2 / 2 := by
      unfold volatilityTarget
      rw [if_pos hlen]
    have hstd : 0 ≤ sampleStd ((futureOfWindow df seqLen predictionDays i).map
        (fun r => (r.amount : ℝ))) := by
      unfold sampleStd
      exact Real.sqrt_nonneg _
    have hmean : 0 ≤ listMeanR ((futureOfWindow df seqLen predictionDays i).map
        (fun r => (r.amount : ℝ))) := by
      unfold listMeanR
      apply div_nonneg
      · apply List.sum_nonneg
        intro x hx
        rcases List.mem_map.mp hx with ⟨r, hr, he⟩
        rw [← he]
        exact_mod_cast hpos r hr
      · exact Nat.cast_nonneg _
    have hden : 0 < listMeanR ((futureOfWindow df seqLen predictionDays i).map
        (fun r => (r.amount : ℝ))) + 1 / 100000000 := by
      have : (0:ℝ) < 1 / 100000000 := by norm_num
      linarith
    refine ⟨fun h => absurd hlen (by omega), fun _ => hvt, ?_, ?_⟩
    · rw [hvt]
      apply div_nonneg _ (by norm_num : (0:ℝ) ≤ 2)
      exact le_min (div_nonneg hstd (le_of_lt hden)) (by norm_num)
    · rw [hvt]
      rw [div_le_one (by norm_num : (0:ℝ) < 2)]
      exact min_le_right _ _
  · have hvt : volatilityTarget (futureOfWindow df seqLen predictionDays i) = 0.5 := by
      unfold volatilityTarget
      rw [if_neg hlen]
    refine ⟨fun _ => hvt, fun h => absurd h hlen, ?_, ?_⟩
    · rw [hvt]; norm_num
    · rw [hvt]; norm_num

/-- **C6 witness**: the amended statement at the concrete series `volRows`,
window width 1, horizon 7, start 0. -/
theorem C6_witness :
    ((futureOfWindow volRows 1 7 0).length ≤ 1 →
      (targetsVolatility volRows 1 7).getD 0 0 = 0.5) ∧
    (1 < (futureOfWindow volRows 1 7 0).length →
      (targetsVolatility volRows 1 7).getD 0 0 =
        min (sampleStd ((futureOfWindow volRows 1 7 0).map
              (fun r => (r.amount : ℝ))) /
             (listMeanR ((futureOfWindow volRows 1 7 0).map
              (fun r => (r.amount : ℝ))) + 1 / 100000000)) 2 / 2) ∧
    0 ≤ (targetsVolatility volRows 1 7).getD 0 0 ∧
    (targetsVolatility volRows 1 7).getD 0 0 ≤ 1 :=
  C6_volatility_label volRows 1 7 0 (by decide) (by decide)

/-- A successful class run is nonempty. -/
theorem takeRun_ne_nil {p : Char → Bool} {cs run rest : List Char}
    (h : takeRun p cs = some (run, rest)) : run ≠ [] := by
  unfold takeRun at h
  split at h
  · cases h
  · rename_i hne
    injection h with h'
    injection h' with h1 h2
    intro he
    exact hne (h1.trans he)

/-- A matched reference token is nonempty. -/
theorem tryRefAt_tok_ne_nil {cs tok : List Char}
    (h : tryRefAt cs = some tok) : tok ≠ [] := by
  unfold tryRefAt at h
  split at h
  · cases h
  · split at h
    · rename_i htr
      injection h with h'
      rw [← h']
      exact takeRun_ne_nil htr
    · cases h

/-- A successful position scan comes from a successful match at some
position. -/
theorem searchList_mediates {α : Type} (att : List Char → Option α) :
    ∀ (cs : List Char) (r : α), searchList att cs = some r →
      ∃ cs', att cs' = some r := by
  intro cs
  induction cs with
  | nil =>
    intro r h
    exact ⟨[], h⟩
  | cons c cs ih =>
    intro r h
    unfold searchList at h
    cases ha : att (c :: cs) with
    | some v =>
      rw [ha] at h
      exact ⟨c :: cs, ha.trans h⟩
    | none =>
      rw [ha] at h
      exact ih r h

/-- **C10**.  Whenever the service-layer parser returns a record, its
reference is a nonempty string — the matched `REF`/`TXN`/`ID` token, or else
the first 12 upper-cased hex digits of the MD5 of the raw text — and it does
not depend on the clock: parsing the same text at any other time yields the
same reference, so the de-duplication reference is a deterministic function
of the message text (given the deterministic MD5). -/
theorem C10_reference_nonempty_deterministic (md5hex : String → String)
    (now now' : ℕ) (s : String) (rec : SvcRecord)
    (hmd5 : ∀ t, (md5hex t).length = 32)
    (h : svcParseMomoSms md5hex now s = some rec) :
    rec.reference ≠ "" ∧
    ((∃ tok, searchList tryRefAt (svcText s) = some tok ∧
        rec.reference = String.mk tok) ∨
     (searchList tryRefAt (svcText s) = none ∧
      rec.reference = String.mk (((md5hex s).toList.take 12).map Char.toUpper))) ∧
    (svcParseMomoSms md5hex now' s).map (fun r => r.reference) =
      some rec.reference := by
  by_cases hs : s = ""
  · rw [hs] at h
    unfold svcParseMomoSms at h
    rw [if_pos rfl] at h
    cases h
  · unfold svcParseMomoSms at h
    rw [if_neg hs] at h
    cases hamt : searchList tryAmtAt (svcText s) with
    | none =>
      rw [hamt] at h
      cases h
    | some amtChars =>
      rw [hamt] at h
      injection h with h'
      have hrec : rec.reference = svcReference md5hex s := by
        rw [← h']
      refine ⟨?_, ?_, ?_⟩
      · rw [hrec]
        unfold svcReference
        cases href : searchList tryRefAt (svcText s) with
        | some tok =>
          have htokne : tok ≠ [] := by
            rcases searchList_mediates tryRefAt (svcText s) tok href with ⟨cs', hcs⟩
            exact tryRefAt_tok_ne_nil hcs
          intro e
          apply htokne
          have hd := congrArg String.data e
          simpa using hd
        | none =>
          intro e
          have hd := congrArg String.data e
          have hemp : ((md5hex s).toList.take 12).map Char.toUpper = [] := by
            simpa using hd
          have htake : (md5hex s).toList.take 12 = [] :=
            List.map_eq_nil_iff.mp hemp
          have h32 : (md5hex s).toList.length = 32 := hmd5 s
          have h12 : ((md5hex s).toList.take 12).length = 12 := by
            rw [List.length_take, h32]
            decide
          rw [htake] at h12
          cases h12
      · cases href : searchList tryRefAt (svcText s) with
        | some tok =>
          left
          refine ⟨tok, rfl, ?_⟩
          rw [hrec]
          unfold svcReference
          rw [href]
        | none =>
          right
          refine ⟨rfl, ?_⟩
          rw [hrec]
          unfold svcReference
          rw [href]
      · unfold svcParseMomoSms
        rw [if_neg hs, hamt]
        rw [hrec]
        rfl

/-- **C10 witness**: the theorem at the concrete token-carrying message, the
constant 32-digit stand-in digest, and clocks 0 and 1. -/
theorem C10_witness :
    refTokenRec.reference ≠ "" ∧
    ((∃ tok, searchList tryRefAt (svcText refTokenMsg) = some tok ∧
        refTokenRec.reference = String.mk tok) ∨
     (searchList tryRefAt (svcText refTokenMsg) = none ∧
      refTokenRec.reference =
        String.mk (((md5Const refTokenMsg).toList.take 12).map Char.toUpper))) ∧
    (svcParseMomoSms md5Const 1 refTokenMsg).map (fun r => r.reference) =
      some refTokenRec.reference :=
  C10_reference_nonempty_deterministic md5Const 0 1 refTokenMsg refTokenRec
    (fun _ => rfl) rfl

end FinGuide



